import Mathlib

/-!
Verification of the credential-lifecycle subsystem of the ricochet CLI.

The definitions below are a shallow embedding of the Rust sources:
  - src/config.rs       (credential store, resolution engine, migration)
  - src/client.rs       (API-key masking)
  - src/commands/auth/login.rs (login orchestration, logout)

Modelling conventions:
  - A Rust `HashMap<String, ServerConfig>` becomes an association list
    `List (String × ServerConfig)`; `insert` overwrites in place,
    `values().next()` is the head, and iteration order is list order.
  - `Result<T>` becomes `Except String T`; the error string is the message
    passed to `anyhow::bail!` (quote punctuation around interpolated names
    is elided).
  - The environment variables RICOCHET_SERVER and RICOCHET_API_KEY are
    threaded through as explicit `Option String` snapshots.
  - External effects that feed the login flow (key validation over the
    network, the OAuth wait loop, key issuance, the manual password prompt)
    are passed in as explicit outcome values; `&mut Config` plus `save()`
    becomes state passing of the config together with a log of saved
    snapshots.
  - Rust byte-indexed slicing of keys is modelled with character-indexed
    `String.take`/`String.drop`; the keys involved are ASCII.
-/

deriving instance DecidableEq for Except

namespace Ricochet

/-- Modelled from the spec: a parsed absolute http(s) URL as produced by the
external `url` library (not part of this repository). The credential
subsystem only compares URLs for equality and reads the host component, so
the embedding keeps the serialized form and the host; two URLs are equal
exactly when both components agree. -/
structure Url where
  full : String
  host : Option String
deriving DecidableEq

/-- Configuration for a single server (src/config.rs, `ServerConfig`). -/
structure ServerConfig where
  url : Url
  api_key : Option String
deriving DecidableEq

/-- The servers map of the config, in HashMap iteration order. -/
abbrev Servers := List (String × ServerConfig)

/-- Lookup by name, mirroring `HashMap::get`. -/
def serversGet (m : Servers) (k : String) : Option ServerConfig :=
  (m.find? (fun p => p.1 == k)).map (fun p => p.2)

/-- Membership test, mirroring `HashMap::contains_key`. -/
def serversContains (m : Servers) (k : String) : Bool :=
  m.any (fun p => p.1 == k)

/-- Insert-or-overwrite, mirroring `HashMap::insert`: an existing key keeps
its position in iteration order, a new key is appended. -/
def serversInsert (m : Servers) (k : String) (v : ServerConfig) : Servers :=
  if serversContains m k then
    m.map (fun p => if p.1 == k then (k, v) else p)
  else
    m ++ [(k, v)]

/-- Removal by key, mirroring `HashMap::remove`. -/
def serversRemove (m : Servers) (k : String) : Servers :=
  m.filter (fun p => p.1 != k)

/-- The name and URL of one servers-map entry (the data that logout
resolution inspects). -/
def keyUrl (p : String × ServerConfig) : String × Url :=
  (p.1, p.2.url)

/-- The durable config record (src/config.rs, `Config`). `server` and
`api_key` are the legacy single-server fields. -/
structure Config where
  server : Option Url
  api_key : Option String
  servers : Servers
  default_server : Option String
  default_format : Option String
deriving DecidableEq

/-- Boolean test that p is a leading substring of s, modelling the Rust
`str::starts_with` (expressed on character lists so that it computes by
structural recursion). -/
def strStartsWith (s p : String) : Bool :=
  p.toList.isPrefixOf s.toList

/-- Modelled from the spec: host extraction performed by the URL library --
the substring between the scheme separator and the next delimiter
(expressed on character lists so that it computes by structural
recursion). -/
def hostOfString (s : String) : Option String :=
  let rest := if strStartsWith s "http://" then s.toList.drop 7 else s.toList.drop 8
  let h := rest.takeWhile (fun c => c != '/' && c != ':' && c != '?' && c != '#')
  if h.isEmpty then none else some (String.mk h)

/-- Parse a server URL, validating the scheme prefix is present
(src/config.rs, `parse_server_url`). The delegated `Url::parse` call is
modelled as succeeding exactly when a nonempty host can be extracted. -/
def parse_server_url (url_str : String) : Except String Url :=
  if !(strStartsWith url_str "http://" || strStartsWith url_str "https://") then
    .error ("Server URL must include the scheme prefix (http:// or https://). Got: " ++ url_str)
  else
    match hostOfString url_str with
    | some h => .ok ⟨url_str, some h⟩
    | none => .error "Invalid server URL format"

/-- Apply the RICOCHET_API_KEY override if set
(src/config.rs, `Config::apply_env_key_override`). -/
def apply_env_key_override (envApiKey : Option String) (sc : ServerConfig) : ServerConfig :=
  match envApiKey with
  | some k => { sc with api_key := some k }
  | none => sc

/-- Migrate the legacy single-server config to the multi-server format
(src/config.rs, `Config::migrate_legacy_config`): `take` empties the legacy
fields and an entry named "default" is created from them. -/
def Config.migrate_legacy_config (c : Config) : Config :=
  match c.server with
  | some url =>
      { c with
        server := none
        api_key := none
        servers := serversInsert c.servers "default" ⟨url, c.api_key⟩
        default_server := some "default" }
  | none => c

/-- Resolve a server from a string, either a name or a URL
(src/config.rs, `Config::resolve_server_string`). -/
def Config.resolve_server_string (c : Config) (envApiKey : Option String)
    (server_str : String) : Except String ServerConfig :=
  match serversGet c.servers server_str with
  | some sc => .ok (apply_env_key_override envApiKey sc)
  | none =>
    if strStartsWith server_str "http://" || strStartsWith server_str "https://" then
      match parse_server_url server_str with
      | .error e => .error e
      | .ok url =>
        match c.servers.find? (fun p => decide (p.2.url = url)) with
        | some p => .ok (apply_env_key_override envApiKey p.2)
        | none => .ok ⟨url, none⟩
    else
      if c.servers.isEmpty then
        .error ("Server " ++ server_str ++
          " not found. No servers configured. Use ricochet servers add to add one.")
      else
        .error ("Server " ++ server_str ++ " not found. Available servers: " ++
          String.intercalate ", " (c.servers.map (fun p => p.1)))

/-- Get the default server configuration
(src/config.rs, `Config::get_default_server`). -/
def Config.get_default_server (c : Config) (envApiKey : Option String) :
    Except String ServerConfig :=
  match c.default_server.bind (fun name => serversGet c.servers name) with
  | some sc => .ok (apply_env_key_override envApiKey sc)
  | none =>
    match c.servers.head? with
    | some p => .ok (apply_env_key_override envApiKey p.2)
    | none => .error "No servers configured. Use ricochet servers add to add a server."

/-- Resolve a server by name or URL with the documented precedence:
RICOCHET_SERVER env var, then the provided reference, then the default
server (src/config.rs, `Config::resolve_server`). -/
def Config.resolve_server (c : Config) (envServer envApiKey : Option String)
    (server_ref : Option String) : Except String ServerConfig :=
  match envServer with
  | some s => c.resolve_server_string envApiKey s
  | none =>
    match server_ref with
    | some r => c.resolve_server_string envApiKey r
    | none => c.get_default_server envApiKey

/-- Add or update a server (src/config.rs, `Config::add_server`). -/
def Config.add_server (c : Config) (name : String) (url : Url)
    (api_key : Option String) : Config :=
  let c1 := { c with servers := serversInsert c.servers name ⟨url, api_key⟩ }
  if c1.default_server.isNone then { c1 with default_server := some name } else c1

/-- Remove a server, returning whether it was the default
(src/config.rs, `Config::remove_server`). -/
def Config.remove_server (c : Config) (name : String) : Except String (Config × Bool) :=
  if !(serversContains c.servers name) then
    .error ("Server " ++ name ++ " not found")
  else
    let c1 := { c with servers := serversRemove c.servers name }
    if c1.default_server = some name then
      .ok ({ c1 with default_server := none }, true)
    else
      .ok (c1, false)

/-- Abbreviate an API key for display (src/client.rs,
`RicochetClient::mask_api_key`). -/
def mask_api_key (key : String) : String :=
  if key.isEmpty then "No API key provided"
  else if key.length > 12 then
    key.take 8 ++ "..." ++ key.drop (key.length - 4)
  else "***"

/-- The key-prefix display of the login success paths
(src/commands/auth/login.rs, `validate_and_save_key` and
`create_api_key_with_session`): the first 12 characters when the key is
longer than 12, otherwise the whole key, followed by "...". -/
def login_key_display (key : String) : String :=
  (if key.length > 12 then key.take 12 else key) ++ "..."

/-- The dot-separated labels of a host, modelling the Rust
`host.split(.).collect::<Vec<_>>()` (expressed on character lists so that
it computes by structural recursion). -/
def hostParts (host : String) : List String :=
  (host.toList.splitOn '.').map (fun l => String.mk l)

/-- Determine the server name to use for saving credentials
(src/commands/auth/login.rs, `determine_server_name`). -/
def determine_server_name (c : Config) (server_url : Url)
    (server_name : Option String) : String :=
  match server_name with
  | some name => name
  | none =>
    match c.servers.find? (fun p => decide (p.2.url = server_url)) with
    | some p => p.1
    | none =>
      match server_url.host with
      | some host =>
        if host == "localhost" || host == "127.0.0.1" then "local"
        else
          let parts := hostParts host
          if !parts.isEmpty && parts.headD "" != "www" then parts.headD ""
          else "default"
      | none => "default"

/-- Outcome of `RicochetClient::validate_key` over the network:
`Ok(true)`, `Ok(false)`, or `Err(e)`. -/
inductive ValidationOutcome where
  | valid
  | invalid
  | failed (msg : String)
deriving DecidableEq

/-- Outcome of the OAuth wait loop of `oauth_login_with_callback`
(src/commands/auth/login.rs): the timeout elapsed, the callback carried an
error parameter, the callback carried a token payload, or the callback
completed with no payload. -/
inductive OAuthWaitResult where
  | timeout
  | errorParam (e : String)
  | payload (tok : String)
  | noPayload
deriving DecidableEq

/-- Validate a key and, only on success, save it to the config
(src/commands/auth/login.rs, `validate_and_save_key`). Returns the final
config, the log of saved snapshots, and the command result. -/
def validate_and_save_key (outcome : ValidationOutcome) (server : Url)
    (key : String) (server_name : Option String) (c : Config)
    (log : List Config) : Config × List Config × Except String Unit :=
  match outcome with
  | .valid =>
    let name := determine_server_name c server server_name
    let c1 := c.add_server name server (some key)
    (c1, log ++ [c1], .ok ())
  | .invalid => (c, log, .error "Invalid API key. Please check and try again.")
  | .failed e => (c, log, .error ("Failed to validate credentials: " ++ e))

/-- Exchange a session token for an API key and save it
(src/commands/auth/login.rs, `create_api_key_with_session`); the issuance
endpoint response is `some key` on a 2xx response carrying a key, else
`none`. -/
def create_api_key_with_session (issued : Option String) (server : Url)
    (server_name : Option String) (c : Config) (log : List Config) :
    Config × List Config × Except String Unit :=
  match issued with
  | some key =>
    let name := determine_server_name c server server_name
    let c1 := c.add_server name server (some key)
    (c1, log ++ [c1], .ok ())
  | none => (c, log, .error "Failed to create API key. Session may be invalid or expired.")

/-- The decision logic of `oauth_login_with_callback` after the wait loop
(src/commands/auth/login.rs): timeout and server-reported errors bail; a
payload with the rico_ prefix is validated and saved directly; any other
payload is exchanged via key issuance; no payload falls back to manual key
entry followed by validation. -/
def oauth_login_with_callback (wait : OAuthWaitResult)
    (validation : ValidationOutcome) (issued : Option String)
    (manualKey : String) (server : Url) (server_name : Option String)
    (c : Config) (log : List Config) : Config × List Config × Except String Unit :=
  match wait with
  | .timeout => (c, log, .error "Authentication timeout. Please try again.")
  | .errorParam e => (c, log, .error ("Authentication failed: " ++ e))
  | .payload tok =>
    if strStartsWith tok "rico_" then
      validate_and_save_key validation server tok server_name c log
    else
      create_api_key_with_session issued server server_name c log
  | .noPayload =>
    validate_and_save_key validation server manualKey server_name c log

/-- Resolution of the logout target to an entry name
(src/commands/auth/login.rs, `logout`, first half): a known name, a URL
matched against existing entries, or the default server name. -/
def logoutResolveName (c : Config) (server_ref : Option String) :
    Except String String :=
  match server_ref with
  | some ref_str =>
    if serversContains c.servers ref_str then .ok ref_str
    else if strStartsWith ref_str "http://" || strStartsWith ref_str "https://" then
      match parse_server_url ref_str with
      | .error e => .error e
      | .ok url =>
        match c.servers.find? (fun p => decide (p.2.url = url)) with
        | some p => .ok p.1
        | none => .error ("No server found with URL: " ++ ref_str)
    else .error ("Server " ++ ref_str ++ " not found")
  | none =>
    match c.default_server with
    | some s => .ok s
    | none => .error "No default server configured"

/-- Log out from a server (src/commands/auth/login.rs, `logout`): resolve
the target entry; if it has no stored key, succeed as a no-op without
saving; otherwise clear the key and save. -/
def logout (c : Config) (server_ref : Option String) (log : List Config) :
    Config × List Config × Except String Unit :=
  match logoutResolveName c server_ref with
  | .error e => (c, log, .error e)
  | .ok name =>
    match serversGet c.servers name with
    | none => (c, log, .error ("Server " ++ name ++ " not found"))
    | some sc =>
      if sc.api_key.isNone then (c, log, .ok ())
      else
        let c1 := { c with servers := serversInsert c.servers name ⟨sc.url, none⟩ }
        (c1, log ++ [c1], .ok ())

/-- Test fixture: URL of server A. -/
def urlA : Url := ⟨"https://a.example.com/", some "a.example.com"⟩

/-- Test fixture: URL of server B. -/
def urlB : Url := ⟨"https://b.example.com/", some "b.example.com"⟩

/-- Test fixture: the two-entry store of the spec precedence property --
entry A has a key, entry B has none, and A is the default. -/
def cfgAB : Config :=
  ⟨none, none, [("A", ⟨urlA, some "rico_a"⟩), ("B", ⟨urlB, none⟩)], some "A", some "table"⟩

/-- Test fixture: the A/B store after logging out of entry A. -/
def cfgABOut : Config :=
  ⟨none, none, [("A", ⟨urlA, none⟩), ("B", ⟨urlB, none⟩)], some "A", some "table"⟩

/-- Test fixture: a legacy single-server config awaiting migration. -/
def legacyCfg : Config := ⟨some urlA, some "rico_legacy", [], none, some "table"⟩

/-- Test fixture: a config with no servers at all. -/
def cfgNoServers : Config := ⟨none, none, [], none, none⟩

/-- Test fixture: a config whose default_server names a missing entry while
one other entry exists. -/
def cfgDanglingDefault : Config := ⟨none, none, [("B", ⟨urlB, none⟩)], some "A", none⟩

/-- Test fixture: a config whose default_server names a missing entry and
whose servers map is empty. -/
def cfgDanglingEmpty : Config := ⟨none, none, [], some "A", none⟩

/-- Test fixture: a URL whose host has a leading www label. -/
def wwwUrl : Url := ⟨"https://www.example.com/", some "www.example.com"⟩

/-- C1: server resolution obeys the stated precedence -- a set environment
server override is used as the reference string regardless of any explicitly
passed reference; otherwise the explicit reference is used if present;
otherwise the default server is used. -/
theorem resolve_server_precedence (c : Config) (envServer envApiKey : Option String)
    (server_ref : Option String) :
    (∀ s, envServer = some s →
      c.resolve_server envServer envApiKey server_ref = c.resolve_server_string envApiKey s) ∧
    (envServer = none → ∀ r, server_ref = some r →
      c.resolve_server envServer envApiKey server_ref = c.resolve_server_string envApiKey r) ∧
    (envServer = none → server_ref = none →
      c.resolve_server envServer envApiKey server_ref = c.get_default_server envApiKey) := by
  refine ⟨?_, ?_, ?_⟩ <;> intros <;> subst_vars <;> rfl

/-- Witness for C1 at the A/B store of the spec: the env override beats an
explicit reference, the explicit reference beats the default, and the
default is used when nothing else is given. -/
theorem resolve_server_precedence_witness :
    cfgAB.resolve_server (some "B") none (some "A") = cfgAB.resolve_server_string none "B" ∧
    cfgAB.resolve_server none none (some "B") = cfgAB.resolve_server_string none "B" ∧
    cfgAB.resolve_server none none none = cfgAB.get_default_server none :=
  ⟨(resolve_server_precedence cfgAB (some "B") none (some "A")).1 "B" rfl,
   (resolve_server_precedence cfgAB none none (some "B")).2.1 rfl "B" rfl,
   (resolve_server_precedence cfgAB none none none).2.2 rfl rfl⟩

/-- C3: every failing login path -- a key that validates as invalid, a
validation error, an OAuth timeout, a server-reported OAuth error, and a
manually entered key that validates as invalid -- leaves the config
unchanged, saves nothing, and reports an error. -/
theorem failed_login_preserves_store (server : Url) (key manualKey : String)
    (server_name : Option String) (c : Config) (log : List Config) :
    validate_and_save_key .invalid server key server_name c log
      = (c, log, .error "Invalid API key. Please check and try again.") ∧
    (∀ e, validate_and_save_key (.failed e) server key server_name c log
      = (c, log, .error ("Failed to validate credentials: " ++ e))) ∧
    (∀ validation issued,
      oauth_login_with_callback .timeout validation issued manualKey server server_name c log
        = (c, log, .error "Authentication timeout. Please try again.")) ∧
    (∀ e validation issued,
      oauth_login_with_callback (.errorParam e) validation issued manualKey server server_name c log
        = (c, log, .error ("Authentication failed: " ++ e))) ∧
    (∀ issued,
      oauth_login_with_callback .noPayload .invalid issued manualKey server server_name c log
        = (c, log, .error "Invalid API key. Please check and try again.")) :=
  ⟨rfl, fun _ => rfl, fun _ _ => rfl, fun _ _ _ => rfl, fun _ => rfl⟩

/-- C4: legacy-schema migration is idempotent -- applying the transform
twice equals applying it once, and after a migration that actually ran the
legacy url and key fields are absent. -/
theorem migrate_legacy_config_idempotent (c : Config) :
    c.migrate_legacy_config.migrate_legacy_config = c.migrate_legacy_config ∧
    (c.server.isSome = true →
      c.migrate_legacy_config.server = none ∧ c.migrate_legacy_config.api_key = none) := by
  cases h : c.server <;> simp [Config.migrate_legacy_config, h]

/-- Witness for C4 at a concrete legacy config. -/
theorem migrate_legacy_config_idempotent_witness :
    legacyCfg.migrate_legacy_config.migrate_legacy_config = legacyCfg.migrate_legacy_config ∧
    legacyCfg.migrate_legacy_config.server = none ∧
    legacyCfg.migrate_legacy_config.api_key = none :=
  ⟨(migrate_legacy_config_idempotent legacyCfg).1,
   (migrate_legacy_config_idempotent legacyCfg).2 rfl⟩

/-- C10: when default_server names an entry absent from the servers map,
resolution with no reference does not fail -- it falls back to the first
entry in iteration order, failing only when the map is empty. -/
theorem dangling_default_falls_back (c : Config) (envApiKey : Option String) (d : String)
    (h1 : c.default_server = some d) (h2 : serversGet c.servers d = none) :
    (∀ p rest, c.servers = p :: rest →
      c.get_default_server envApiKey = .ok (apply_env_key_override envApiKey p.2)) ∧
    (c.servers = [] → ∃ e, c.get_default_server envApiKey = .error e) := by
  have hbind : c.default_server.bind (fun name => serversGet c.servers name) = none := by
    rw [h1]; exact h2
  constructor
  · intro p rest hps
    unfold Config.get_default_server
    rw [hbind, hps]
    rfl
  · intro hps
    refine ⟨"No servers configured. Use ricochet servers add to add a server.", ?_⟩
    unfold Config.get_default_server
    rw [hbind, hps]
    rfl

/-- Witness for C10: a dangling default with one other entry falls back to
that entry; a dangling default over an empty map fails. -/
theorem dangling_default_falls_back_witness :
    cfgDanglingDefault.get_default_server none
      = .ok (apply_env_key_override none (⟨urlB, none⟩ : ServerConfig)) ∧
    (∃ e, cfgDanglingEmpty.get_default_server none = .error e) :=
  ⟨(dangling_default_falls_back cfgDanglingDefault none "A" rfl rfl).1
      ("B", ⟨urlB, none⟩) [] rfl,
   (dangling_default_falls_back cfgDanglingEmpty none "A" rfl rfl).2 rfl⟩

/-- C5 counterexample: the login success message shows the first 12
characters of a long key followed by an ellipsis, not the first 8 and the
last 4 joined by an ellipsis as the claim states. -/
theorem login_key_display_counterexample :
    login_key_display "rico_abcdefghijkl" = "rico_abcdefg..." ∧
    ("rico_abcdefg..." : String) ≠ "rico_abc...ijkl" := by
  exact ⟨rfl, by decide⟩

/-- C5 amended: the client masking helper obeys the abbreviation law for
keys longer than 12 characters, shows the fixed marker for nonempty keys of
length at most 12, and a distinct fixed message for an empty key; the login
success message instead shows the first 12 characters (or the whole key when
its length is at most 12) followed by an ellipsis. -/
theorem key_display_forms (key : String) :
    (key.length > 12 →
      mask_api_key key = key.take 8 ++ "..." ++ key.drop (key.length - 4)) ∧
    (key ≠ "" → key.length ≤ 12 → mask_api_key key = "***") ∧
    mask_api_key "" = "No API key provided" ∧
    (key.length > 12 → login_key_display key = key.take 12 ++ "...") ∧
    (key.length ≤ 12 → login_key_display key = key ++ "...") := by
  refine ⟨?_, ?_, rfl, ?_, ?_⟩
  · intro h
    have hne : key.isEmpty = false := by
      cases hk : key.isEmpty
      · rfl
      · have : key = "" := (String.isEmpty_iff key).mp hk
        subst this
        exact absurd h (by decide)
    simp [mask_api_key, hne, h]
  · intro hne hle
    have hempty : key.isEmpty = false := by
      cases hk : key.isEmpty
      · rfl
      · exact absurd ((String.isEmpty_iff key).mp hk) hne
    have hnot : ¬ (key.length > 12) := by omega
    simp [mask_api_key, hempty, hnot]
  · intro h
    simp [login_key_display, h]
  · intro h
    have hnot : ¬ (key.length > 12) := by omega
    simp [login_key_display, hnot]

/-- Witness for C5 amended, at a 17-character key and a 7-character key. -/
theorem key_display_forms_witness :
    ("rico_abcdefghijkl".length > 12 ∧
      mask_api_key "rico_abcdefghijkl"
        = "rico_abcdefghijkl".take 8 ++ "..."
            ++ "rico_abcdefghijkl".drop ("rico_abcdefghijkl".length - 4)) ∧
    (("rico_ab" : String) ≠ "" ∧ "rico_ab".length ≤ 12 ∧ mask_api_key "rico_ab" = "***") ∧
    login_key_display "rico_ab" = "rico_ab" ++ "..." :=
  ⟨⟨by decide, (key_display_forms "rico_abcdefghijkl").1 (by decide)⟩,
   ⟨by decide, by decide, (key_display_forms "rico_ab").2.1 (by decide) (by decide)⟩,
   (key_display_forms "rico_ab").2.2.2.2 (by decide)⟩

/-- C2 counterexample: with the environment API-key override set, resolving
a raw URL that matches no known entry returns a config with no API key, not
the override value. -/
theorem env_key_override_no_match_counterexample :
    cfgAB.resolve_server_string (some "rico_env") "https://new.example.com"
      = .ok ⟨⟨"https://new.example.com", some "new.example.com"⟩, none⟩ ∧
    (none : Option String) ≠ some "rico_env" := by
  exact ⟨by decide, by decide⟩

/-- C2 amended: the environment API-key override is returned as the key on
the named-entry path and on the raw-URL path that matches a known entry, but
the raw-URL path that matches no known entry returns no key even when the
override is set. -/
theorem env_key_override_paths (c : Config) (k : String) (s : String) :
    (∀ sc, serversGet c.servers s = some sc →
      c.resolve_server_string (some k) s = .ok ⟨sc.url, some k⟩) ∧
    (serversGet c.servers s = none →
      ∀ url, parse_server_url s = .ok url →
        (∀ p, c.servers.find? (fun q => decide (q.2.url = url)) = some p →
          c.resolve_server_string (some k) s = .ok ⟨p.2.url, some k⟩) ∧
        (c.servers.find? (fun q => decide (q.2.url = url)) = none →
          c.resolve_server_string (some k) s = .ok ⟨url, none⟩)) := by
  constructor
  · intro sc hget
    simp [Config.resolve_server_string, hget, apply_env_key_override]
  · intro hget url hp
    have hb : (strStartsWith s "http://" || strStartsWith s "https://") = true := by
      cases hb : (strStartsWith s "http://" || strStartsWith s "https://")
      · rw [parse_server_url, hb] at hp
        exact absurd hp (by simp)
      · rfl
    constructor
    · intro p hfind
      simp [Config.resolve_server_string, hget, hb, hp, hfind, apply_env_key_override]
    · intro hfind
      simp [Config.resolve_server_string, hget, hb, hp, hfind]

/-- Witness for C2 amended: the named-entry path returns the override, the
no-match raw-URL path returns no key. -/
theorem env_key_override_paths_witness :
    cfgAB.resolve_server_string (some "rico_env") "A" = .ok ⟨urlA, some "rico_env"⟩ ∧
    cfgAB.resolve_server_string (some "rico_env") "https://b.example.com/"
      = .ok ⟨urlB, some "rico_env"⟩ ∧
    cfgAB.resolve_server_string (some "rico_env") "https://new.example.com"
      = .ok ⟨⟨"https://new.example.com", some "new.example.com"⟩, none⟩ :=
  ⟨(env_key_override_paths cfgAB "rico_env" "A").1 ⟨urlA, some "rico_a"⟩ (by decide),
   ((env_key_override_paths cfgAB "rico_env" "https://b.example.com/").2 (by decide)
      ⟨"https://b.example.com/", some "b.example.com"⟩ (by decide)).1
      ("B", ⟨urlB, none⟩) (by decide),
   ((env_key_override_paths cfgAB "rico_env" "https://new.example.com").2 (by decide)
      ⟨"https://new.example.com", some "new.example.com"⟩ (by decide)).2 (by decide)⟩

/-- C9 counterexample: for a host with a leading www label the code does not
strip the label and derive the name from the remainder (which would give
example); it falls back to the generic name default. -/
theorem determine_server_name_www_counterexample :
    determine_server_name cfgNoServers wwwUrl none = "default" ∧
    ("default" : String) ≠ "example" := by
  exact ⟨by decide, by decide⟩

/-- C9 amended: the persisted server name is the explicit name when one was
resolved from the login reference; else the name of the first existing entry
whose URL equals the login URL; else, for a known host, the friendly name
local for the loopback hosts, the first dot-separated label of the host when
that label is not www, and the generic name default when the leading label
is www; with no host, the generic name default. -/
theorem determine_server_name_characterization (c : Config) (u : Url)
    (sn : Option String) :
    (∀ n, sn = some n → determine_server_name c u sn = n) ∧
    (sn = none →
      (∀ p, c.servers.find? (fun q => decide (q.2.url = u)) = some p →
        determine_server_name c u sn = p.1) ∧
      (c.servers.find? (fun q => decide (q.2.url = u)) = none →
        (u.host = none → determine_server_name c u sn = "default") ∧
        (∀ h, u.host = some h →
          ((h = "localhost" ∨ h = "127.0.0.1") →
            determine_server_name c u sn = "local") ∧
          (h ≠ "localhost" → h ≠ "127.0.0.1" →
            ((hostParts h).headD "" ≠ "www" →
              determine_server_name c u sn = (hostParts h).headD "") ∧
            ((hostParts h).headD "" = "www" →
              determine_server_name c u sn = "default"))))) := by
  have hsplit : ∀ h : String, hostParts h ≠ [] := by
    intro h hnil
    rw [hostParts, List.map_eq_nil_iff] at hnil
    exact List.splitOnP_ne_nil _ h.toList hnil
  refine ⟨?_, ?_⟩
  · intro n hn
    subst hn
    rfl
  · intro hsn
    subst hsn
    refine ⟨?_, ?_⟩
    · intro p hfind
      simp [determine_server_name, hfind]
    · intro hfind
      refine ⟨?_, ?_⟩
      · intro hh
        simp [determine_server_name, hfind, hh]
      · intro h hh
        refine ⟨?_, ?_⟩
        · intro hloop
          rcases hloop with h1 | h1 <;> simp [determine_server_name, hfind, hh, h1]
        · intro h1 h2
          have hne : (hostParts h).isEmpty = false := by
            rw [List.isEmpty_eq_false]
            exact hsplit h
          refine ⟨?_, ?_⟩
          · intro hcond
            rw [List.headD_eq_head?_getD] at hcond
            simp [determine_server_name, List.headD_eq_head?_getD, hfind, hh, h1, h2,
              hcond, hne]
          · intro hcond
            rw [List.headD_eq_head?_getD] at hcond
            simp [determine_server_name, List.headD_eq_head?_getD, hfind, hh, h1, h2,
              hcond]

/-- Witness for C9 amended: an explicit name wins; a URL matching an
existing entry reuses its name; a loopback host maps to local; an ordinary
host yields its first label; a www-leading host yields default. -/
theorem determine_server_name_characterization_witness :
    determine_server_name cfgAB urlB (some "staging") = "staging" ∧
    determine_server_name cfgAB urlA none = "A" ∧
    determine_server_name cfgNoServers ⟨"http://localhost:3000/", some "localhost"⟩ none
      = "local" ∧
    determine_server_name cfgNoServers urlA none = (hostParts "a.example.com").headD "" ∧
    determine_server_name cfgNoServers wwwUrl none = "default" :=
  ⟨(determine_server_name_characterization cfgAB urlB (some "staging")).1 "staging" rfl,
   ((determine_server_name_characterization cfgAB urlA none).2 rfl).1
      ("A", ⟨urlA, some "rico_a"⟩) (by decide),
   ((((determine_server_name_characterization cfgNoServers
        ⟨"http://localhost:3000/", some "localhost"⟩ none).2 rfl).2 (by decide)).2
        "localhost" rfl).1 (Or.inl rfl),
   (((((determine_server_name_characterization cfgNoServers urlA none).2 rfl).2
        (by decide)).2 "a.example.com" rfl).2 (by decide) (by decide)).1 (by decide),
   (((((determine_server_name_characterization cfgNoServers wwwUrl none).2 rfl).2
        (by decide)).2 "www.example.com" rfl).2 (by decide) (by decide)).2 (by decide)⟩

/-- A key absent from the map means every entry has a different name. -/
theorem serversContains_eq_false_iff (m : Servers) (k : String) :
    serversContains m k = false ↔ ∀ p ∈ m, p.1 ≠ k := by
  simp [serversContains]

/-- Inserting a fresh key appends the new entry. -/
theorem serversInsert_of_not_contains {m : Servers} {k : String} (v : ServerConfig)
    (h : serversContains m k = false) : serversInsert m k v = m ++ [(k, v)] := by
  simp [serversInsert, h]

/-- Removing a freshly appended key restores the original map. -/
theorem serversRemove_append_last {m : Servers} {k : String} (v : ServerConfig)
    (h : serversContains m k = false) : serversRemove (m ++ [(k, v)]) k = m := by
  rw [serversRemove, List.filter_append]
  have h1 : m.filter (fun p => p.1 != k) = m := by
    apply List.filter_eq_self.mpr
    intro p hp
    have h2 := (serversContains_eq_false_iff m k).mp h p hp
    simp [h2]
  rw [h1]
  simp

/-- C6: add-then-remove round trip -- for a name not in the servers map,
adding it and then removing it restores the servers map; when there was no
default beforehand (so the new entry became the default), the default is
cleared rather than re-pointed. -/
theorem add_remove_roundtrip (c : Config) (x : String) (url : Url)
    (key : Option String) (h : serversContains c.servers x = false) :
    ∃ c2 b, (c.add_server x url key).remove_server x = .ok (c2, b) ∧
      c2.servers = c.servers ∧
      (c.default_server = none → c2.default_server = none) := by
  have hins : serversInsert c.servers x ⟨url, key⟩ = c.servers ++ [(x, ⟨url, key⟩)] :=
    serversInsert_of_not_contains _ h
  have hcont2 : serversContains (c.servers ++ [(x, (⟨url, key⟩ : ServerConfig))]) x = true := by
    simp [serversContains]
  have hrem : serversRemove (c.servers ++ [(x, (⟨url, key⟩ : ServerConfig))]) x = c.servers :=
    serversRemove_append_last _ h
  cases hd : c.default_server with
  | none =>
      refine ⟨{ c with default_server := none }, true, ?_, rfl, fun _ => rfl⟩
      unfold Config.add_server Config.remove_server
      simp [hins, hd, hcont2, hrem]
  | some d =>
      by_cases hdx : d = x
      · subst hdx
        refine ⟨{ c with default_server := none }, true, ?_, rfl, fun _ => rfl⟩
        unfold Config.add_server Config.remove_server
        simp [hins, hd, hcont2, hrem]
      · refine ⟨c, false, ?_, rfl, fun hh => Option.noConfusion hh⟩
        unfold Config.add_server Config.remove_server
        simp [hins, hd, hcont2, hrem, hdx]
        rw [← hd]

/-- Witness for C6 at an empty store: the added entry becomes the default
and removal clears both the entry and the default pointer. -/
theorem add_remove_roundtrip_witness :
    ∃ c2 b, (cfgNoServers.add_server "x" urlB none).remove_server "x" = .ok (c2, b) ∧
      c2.servers = cfgNoServers.servers ∧
      (cfgNoServers.default_server = none → c2.default_server = none) :=
  add_remove_roundtrip cfgNoServers "x" urlB none rfl

/-- A successful lookup implies membership of the key. -/
theorem serversContains_of_get {m : Servers} {k : String} {sc : ServerConfig}
    (h : serversGet m k = some sc) : serversContains m k = true := by
  rw [serversGet] at h
  rw [serversContains]
  cases hf : m.find? (fun p => p.1 == k) with
  | none => rw [hf] at h; cases h
  | some q =>
      have hq := List.find?_some hf
      have hmem := List.mem_of_find?_eq_some hf
      exact List.any_eq_true.mpr ⟨q, hmem, hq⟩

/-- Overwriting a key does not disturb lookups of other keys:
the replacing map of `serversInsert` leaves `find?` for a different name
unchanged. -/
theorem find?_map_replace (k n : String) (v : ServerConfig) (hnk : n ≠ k) :
    ∀ m : Servers,
      (m.map (fun p => if p.1 == k then (k, v) else p)).find? (fun p => p.1 == n)
        = m.find? (fun p => p.1 == n) := by
  intro m
  induction m with
  | nil => rfl
  | cons p t ih =>
      rw [List.map_cons]
      by_cases hp : p.1 = k
      · rw [if_pos (by simp [hp])]
        rw [List.find?_cons_of_neg _ (by simp [Ne.symm hnk]),
            List.find?_cons_of_neg _ (by simp [hp, Ne.symm hnk])]
        exact ih
      · rw [if_neg (by simp [hp])]
        by_cases hn : p.1 = n
        · rw [List.find?_cons_of_pos _ (by simp [hn]),
              List.find?_cons_of_pos _ (by simp [hn])]
        · rw [List.find?_cons_of_neg _ (by simp [hn]),
              List.find?_cons_of_neg _ (by simp [hn])]
          exact ih

/-- The replacing map of `serversInsert` makes the overwritten entry the
`find?` result for its own key. -/
theorem find?_map_replace_self (k : String) (v : ServerConfig) :
    ∀ m : Servers, serversContains m k = true →
      (m.map (fun p => if p.1 == k then (k, v) else p)).find? (fun p => p.1 == k)
        = some (k, v) := by
  intro m
  induction m with
  | nil => intro h; simp [serversContains] at h
  | cons p t ih =>
      intro h
      rw [List.map_cons]
      by_cases hp : p.1 = k
      · rw [if_pos (by simp [hp])]
        rw [List.find?_cons_of_pos _ (by simp)]
      · rw [if_neg (by simp [hp])]
        rw [List.find?_cons_of_neg _ (by simp [hp])]
        apply ih
        rw [serversContains, List.any_cons] at h
        cases hpk : (p.1 == k) with
        | true => exact absurd (by simpa using hpk) hp
        | false =>
            rw [hpk, Bool.false_or] at h
            rw [serversContains]
            exact h

/-- Looking up the inserted key yields the inserted value. -/
theorem serversGet_insert_self {m : Servers} {k : String} (v : ServerConfig)
    (h : serversContains m k = true) :
    serversGet (serversInsert m k v) k = some v := by
  rw [serversInsert, if_pos h, serversGet, find?_map_replace_self k v m h]
  rfl

/-- Looking up any other key is unaffected by an insert. -/
theorem serversGet_insert_ne {m : Servers} {k : String} (v : ServerConfig)
    {n : String} (hnk : n ≠ k) :
    serversGet (serversInsert m k v) n = serversGet m n := by
  rw [serversInsert]
  by_cases hc : serversContains m k = true
  · rw [if_pos hc, serversGet, serversGet, find?_map_replace k n v hnk]
  · rw [if_neg hc, serversGet, serversGet, List.find?_append]
    cases hf : m.find? (fun p => p.1 == n) with
    | some q => rfl
    | none => simp [Ne.symm hnk]

/-- With distinct keys, an entry whose key is found by lookup is the found
entry. -/
theorem get_unique_of_nodup {k : String} {sc : ServerConfig} :
    ∀ m : Servers, (m.map Prod.fst).Nodup → serversGet m k = some sc →
      ∀ p ∈ m, p.1 = k → p = (k, sc) := by
  intro m
  induction m with
  | nil => intro _ _ p hp; cases hp
  | cons q t ih =>
      intro hnd hget p hp hpk
      rw [List.map_cons, List.nodup_cons] at hnd
      by_cases hq : q.1 = k
      · have hsc : sc = q.2 := by
          rw [serversGet, List.find?_cons_of_pos _ (by simp [hq])] at hget
          simpa using hget.symm
        rcases List.mem_cons.mp hp with hpq | hpt
        · subst hpq
          rw [hsc, ← hq]
        · exfalso
          apply hnd.1
          rw [hq, ← hpk]
          exact List.mem_map_of_mem _ hpt
      · have hget2 : serversGet t k = some sc := by
          rw [serversGet, List.find?_cons_of_neg _ (by simp [hq])] at hget
          exact hget
        rcases List.mem_cons.mp hp with hpq | hpt
        · subst hpq; exact absurd hpk hq
        · exact ih hnd.2 hget2 p hpt hpk

/-- Clearing the key of one entry preserves every entry name and URL, when
the map has distinct keys. -/
theorem serversInsert_keyUrl {m : Servers} {k : String} {sc : ServerConfig}
    (hnd : (m.map Prod.fst).Nodup) (hget : serversGet m k = some sc) :
    (serversInsert m k ⟨sc.url, none⟩).map keyUrl = m.map keyUrl := by
  rw [serversInsert, if_pos (serversContains_of_get hget), List.map_map]
  apply List.map_congr_left
  intro p hp
  by_cases hpk : p.1 = k
  · have hpe := get_unique_of_nodup m hnd hget p hp hpk
    rw [Function.comp_apply, hpe]
    simp [keyUrl]
  · rw [Function.comp_apply, if_neg (by simp [hpk])]

/-- Two maps with the same names and URLs agree on URL search results up to
the found name. -/
theorem find?_url_fst_congr (u : Url) :
    ∀ l1 l2 : Servers, l2.map keyUrl = l1.map keyUrl →
      (l2.find? (fun p => decide (p.2.url = u))).map Prod.fst
        = (l1.find? (fun p => decide (p.2.url = u))).map Prod.fst := by
  intro l1
  induction l1 with
  | nil =>
      intro l2 h
      have h1 : l2.map keyUrl = [] := by simpa using h
      have h0 : l2 = [] := List.map_eq_nil_iff.mp h1
      rw [h0]
  | cons q t ih =>
      intro l2 h
      cases l2 with
      | nil => exact absurd h (by simp)
      | cons q2 t2 =>
          rw [List.map_cons, List.map_cons] at h
          injection h with h1 h2
          have hk : q2.1 = q.1 := by
            have h3 := congrArg Prod.fst h1
            simpa [keyUrl] using h3
          have hu : q2.2.url = q.2.url := by
            have h3 := congrArg Prod.snd h1
            simpa [keyUrl] using h3
          by_cases hqu : q.2.url = u
          · rw [List.find?_cons_of_pos _ (by simp [hu, hqu]),
                List.find?_cons_of_pos _ (by simp [hqu])]
            simp [hk]
          · rw [List.find?_cons_of_neg _ (by simp [hu, hqu]),
                List.find?_cons_of_neg _ (by simp [hqu])]
            exact ih t2 h2

/-- Two maps with the same names and URLs agree on name membership. -/
theorem serversContains_keyUrl_congr (r : String) :
    ∀ l1 l2 : Servers, l2.map keyUrl = l1.map keyUrl →
      serversContains l2 r = serversContains l1 r := by
  intro l1
  induction l1 with
  | nil =>
      intro l2 h
      have h1 : l2.map keyUrl = [] := by simpa using h
      have h0 : l2 = [] := List.map_eq_nil_iff.mp h1
      rw [h0]
  | cons q t ih =>
      intro l2 h
      cases l2 with
      | nil => exact absurd h (by simp)
      | cons q2 t2 =>
          rw [List.map_cons, List.map_cons] at h
          injection h with h1 h2
          have hk : q2.1 = q.1 := by
            have h3 := congrArg Prod.fst h1
            simpa [keyUrl] using h3
          rw [serversContains, serversContains, List.any_cons, List.any_cons, hk]
          have h3 := ih t2 h2
          rw [serversContains, serversContains] at h3
          rw [h3]

/-- Logout target resolution only inspects entry names, entry URLs, and the
default pointer. -/
theorem logoutResolveName_keyUrl_congr {c c2 : Config} (ref : Option String)
    (hku : c2.servers.map keyUrl = c.servers.map keyUrl)
    (hds : c2.default_server = c.default_server) :
    logoutResolveName c2 ref = logoutResolveName c ref := by
  cases ref with
  | none => rw [logoutResolveName, logoutResolveName, hds]
  | some r =>
      rw [logoutResolveName, logoutResolveName]
      rw [serversContains_keyUrl_congr r c.servers c2.servers hku]
      by_cases hc : serversContains c.servers r = true
      · rw [if_pos hc, if_pos hc]
      · rw [if_neg hc, if_neg hc]
        by_cases hs : (strStartsWith r "http://" || strStartsWith r "https://") = true
        · rw [if_pos hs, if_pos hs]
          cases hp : parse_server_url r with
          | error e => rfl
          | ok url =>
              dsimp only
              have hf := find?_url_fst_congr url c.servers c2.servers hku
              cases h2 : c2.servers.find? (fun p => decide (p.2.url = url)) with
              | none =>
                  cases h1 : c.servers.find? (fun p => decide (p.2.url = url)) with
                  | none => rfl
                  | some q => rw [h1, h2] at hf; simp at hf
              | some q2 =>
                  cases h1 : c.servers.find? (fun p => decide (p.2.url = url)) with
                  | none => rw [h1, h2] at hf; simp at hf
                  | some q =>
                      rw [h1, h2] at hf
                      simp at hf
                      dsimp only
                      rw [hf]
        · rw [if_neg hs, if_neg hs]

/-- C7: logout is idempotent -- after a successful logout the targeted
entry carries no key, and running the same logout again succeeds as a no-op
that changes nothing and saves nothing. -/
theorem logout_idempotent (c : Config) (ref : Option String) (c2 : Config)
    (log log2 : List Config)
    (hnd : (c.servers.map Prod.fst).Nodup)
    (h : logout c ref log = (c2, log2, .ok ())) :
    logout c2 ref log2 = (c2, log2, .ok ()) ∧
    (∃ name sc2, logoutResolveName c ref = .ok name ∧
      serversGet c2.servers name = some sc2 ∧ sc2.api_key = none) := by
  unfold logout at h
  cases hr : logoutResolveName c ref with
  | error e => simp only [hr] at h; simp at h
  | ok name =>
      simp only [hr] at h
      cases hg : serversGet c.servers name with
      | none => simp only [hg] at h; simp at h
      | some sc =>
          simp only [hg] at h
          cases hk : sc.api_key with
          | none =>
              simp only [hk] at h
              simp only [Option.isNone_none, if_true, Prod.mk.injEq, and_true] at h
              obtain ⟨h1, h2⟩ := h
              subst h1
              subst h2
              constructor
              · simp [logout, hr, hg, hk]
              · exact ⟨name, sc, rfl, hg, hk⟩
          | some k0 =>
              simp only [hk] at h
              simp only [Option.isNone_some, Bool.false_eq_true, if_false,
                Prod.mk.injEq, and_true] at h
              obtain ⟨h1, h2⟩ := h
              subst h1
              subst h2
              have hku : ({ c with
                  servers := serversInsert c.servers name ⟨sc.url, none⟩ } : Config).servers.map
                    keyUrl = c.servers.map keyUrl :=
                serversInsert_keyUrl hnd hg
              have hr2 : logoutResolveName
                  { c with servers := serversInsert c.servers name ⟨sc.url, none⟩ } ref
                    = .ok name := by
                rw [logoutResolveName_keyUrl_congr ref hku rfl, hr]
              have hg2 : serversGet (serversInsert c.servers name ⟨sc.url, none⟩) name
                  = some ⟨sc.url, none⟩ :=
                serversGet_insert_self _ (serversContains_of_get hg)
              constructor
              · simp [logout, hr2, hg2]
              · exact ⟨name, ⟨sc.url, none⟩, rfl, hg2, rfl⟩

/-- Witness for C7: logging out of entry A of the A/B store and then
logging out again. -/
theorem logout_idempotent_witness :
    logout cfgABOut (some "A") [cfgABOut] = (cfgABOut, [cfgABOut], .ok ()) ∧
    (∃ name sc2, logoutResolveName cfgAB (some "A") = .ok name ∧
      serversGet cfgABOut.servers name = some sc2 ∧ sc2.api_key = none) :=
  logout_idempotent cfgAB (some "A") cfgABOut [] [cfgABOut] (by decide) (by decide)

/-- C8: logout only mutates the targeted entry -- after a successful logout
the default pointer is unchanged, every other entry resolves exactly as
before, and the resolved entry keeps its URL with only its key cleared. -/
theorem logout_frame (c : Config) (ref : Option String) (c2 : Config)
    (log log2 : List Config)
    (h : logout c ref log = (c2, log2, .ok ())) :
    c2.default_server = c.default_server ∧
    (∃ name sc, logoutResolveName c ref = .ok name ∧
      serversGet c.servers name = some sc ∧
      serversGet c2.servers name = some ⟨sc.url, none⟩ ∧
      ∀ n, n ≠ name → serversGet c2.servers n = serversGet c.servers n) := by
  unfold logout at h
  cases hr : logoutResolveName c ref with
  | error e => simp only [hr] at h; simp at h
  | ok name =>
      simp only [hr] at h
      cases hg : serversGet c.servers name with
      | none => simp only [hg] at h; simp at h
      | some sc =>
          simp only [hg] at h
          cases hk : sc.api_key with
          | none =>
              simp only [hk] at h
              simp only [Option.isNone_none, if_true, Prod.mk.injEq, and_true] at h
              obtain ⟨h1, h2⟩ := h
              subst h1
              subst h2
              have hsc : sc = ⟨sc.url, none⟩ := by
                cases sc with
                | mk u0 a0 =>
                    simp only at hk
                    rw [hk]
              refine ⟨rfl, name, sc, rfl, hg, ?_, fun n _ => rfl⟩
              rw [hg, ← hsc]
          | some k0 =>
              simp only [hk] at h
              simp only [Option.isNone_some, Bool.false_eq_true, if_false,
                Prod.mk.injEq, and_true] at h
              obtain ⟨h1, h2⟩ := h
              subst h1
              subst h2
              have hg2 : serversGet (serversInsert c.servers name ⟨sc.url, none⟩) name
                  = some ⟨sc.url, none⟩ :=
                serversGet_insert_self _ (serversContains_of_get hg)
              exact ⟨rfl, name, sc, rfl, hg, hg2,
                fun n hn => serversGet_insert_ne _ hn⟩

/-- Witness for C8: logging out of entry A of the A/B store leaves entry B
and the default pointer untouched. -/
theorem logout_frame_witness :
    cfgABOut.default_server = cfgAB.default_server ∧
    (∃ name sc, logoutResolveName cfgAB (some "A") = .ok name ∧
      serversGet cfgAB.servers name = some sc ∧
      serversGet cfgABOut.servers name = some ⟨sc.url, none⟩ ∧
      ∀ n, n ≠ name → serversGet cfgABOut.servers n = serversGet cfgAB.servers n) :=
  logout_frame cfgAB (some "A") cfgABOut [] [cfgABOut] (by decide)

end Ricochet
